import Mathlib

/-!
Verification of the realtime price tracking client core: a shallow
embedding of the binary payload decoder (PriceDataParser), of the
WebSocket connection manager with its subscription registry
(WebSocketManager), and of the update throttle (App handlePriceUpdate /
updatePrice). JavaScript numbers are modelled exactly with Nat, Int and
the rationals; IEEE-754 rounding of magnitudes beyond 53 bits is
idealized as exact, as the specification treats such loss as acceptable.
Fallible operations return Option, with a caught exception modelled as
none at the catching boundary.
-/

/-! ## Binary payload decoder (src/utils/PriceDataParser.jsx) -/

/-- A byte buffer: a list of byte values, each below 256 by construction. -/
abbrev Bytes := List Nat

/-- Buffer readUInt32LE with the default bounds check: reads four bytes
little endian at the offset; the RangeError thrown when the read goes
past the end of the buffer is modelled as none. -/
def readUInt32LE (b : Bytes) (off : Nat) : Option Nat :=
  if off + 4 ≤ b.length then
    some (b.getD off 0 + b.getD (off + 1) 0 * 256 +
          b.getD (off + 2) 0 * 65536 + b.getD (off + 3) 0 * 16777216)
  else none

/-- Reinterpret an unsigned 32 bit value as a signed one, as the
readInt32LE buffer method does. -/
def toSigned32 (n : Nat) : Int :=
  if n < 2147483648 then (n : Int) else (n : Int) - 4294967296

/-- Buffer readInt32LE: an unsigned little endian read reinterpreted as
signed; out of range reads are none. -/
def readInt32LE (b : Bytes) (off : Nat) : Option Int :=
  (readUInt32LE b off).map toSigned32

/-- PriceDataParser.readBigInt64LE: the low 32 bits read unsigned, the
high 32 bits read signed, combined as high times 2 to the 32 plus low. -/
def readBigInt64LE (b : Bytes) (off : Nat) : Option Int := do
  let low ← readUInt32LE b off
  let high ← readInt32LE b (off + 4)
  return high * 4294967296 + (low : Int)

/-- The decoded price reading returned by PriceDataParser.parseData.
The wall clock timestamp field of the source is not modelled; the raw
field keeps the original base64 text as in the source. -/
structure Reading where
  price : ℚ
  confidence : ℚ
  exponent : Int
  rawPrice : Int
  rawConfidence : Int
  raw : String
deriving DecidableEq

/-- Math.pow of ten with an integer exponent, idealized as an exact
rational. -/
def pow10 (e : Int) : ℚ :=
  if 0 ≤ e then (10 : ℚ) ^ e.toNat else 1 / (10 : ℚ) ^ (-e).toNat

/-- The body of parseData after base64 decoding: three fixed offset
reads at 8, 16 and 24, then the record construction. A read failure is
the thrown RangeError, caught by parseData as none. -/
def parseBuffer (raw : String) (b : Bytes) : Option Reading := do
  let price ← readBigInt64LE b 8
  let confidence ← readBigInt64LE b 16
  let exponent ← readInt32LE b 24
  return { price := (price : ℚ) * pow10 exponent,
           confidence := (confidence : ℚ) * pow10 exponent,
           exponent := exponent,
           rawPrice := price,
           rawConfidence := confidence,
           raw := raw }

/-! ### Base64 decoding as performed by Buffer.from(str, base64)

The source imports Buffer from the browser buffer package, whose base64
path first cleans the string (base64clean) and then decodes it with the
base64-js toByteArray routine. The cleaning step never throws: it takes
the part before the first equals sign, trims whitespace, strips every
character outside the base64 alphabet, maps strings shorter than two
characters to the empty string, and pads with equals signs up to a
multiple of four. -/

/-- JavaScript string trim whitespace set (ASCII whitespace plus the
Unicode space characters recognised by the engines). -/
def jsWhitespace (c : Char) : Bool :=
  let n := c.toNat
  (9 ≤ n && n ≤ 13) || n == 32 || n == 160 || n == 5760 ||
  (8192 ≤ n && n ≤ 8202) || n == 8232 || n == 8233 || n == 8239 ||
  n == 8287 || n == 12288 || n == 65279

/-- JavaScript String.prototype.trim on a character list. -/
def trimJS (s : List Char) : List Char :=
  ((s.dropWhile jsWhitespace).reverse.dropWhile jsWhitespace).reverse

/-- Membership in the base64 alphabet accepted by the cleaning step:
letters, digits, plus, slash, minus and underscore. -/
def b64Valid (c : Char) : Bool :=
  let n := c.toNat
  (65 ≤ n && n ≤ 90) || (97 ≤ n && n ≤ 122) || (48 ≤ n && n ≤ 57) ||
  c == ('+') || c == ('/') || c == ('-') || c == ('_')

/-- The base64clean preprocessing of the buffer package. -/
def base64clean (s : List Char) : List Char :=
  let s1 := s.takeWhile (fun c => c ≠ ('='))
  let s2 := trimJS s1
  let s3 := s2.filter b64Valid
  if s3.length < 2 then []
  else s3 ++ List.replicate ((4 - s3.length % 4) % 4) ('=')

/-- The reverse lookup table of base64-js: letters, digits, plus, slash
and the url safe minus and underscore. Characters outside the table are
unreachable after cleaning and map to zero. -/
def b64Rev (c : Char) : Nat :=
  let n := c.toNat
  if 65 ≤ n ∧ n ≤ 90 then n - 65
  else if 97 ≤ n ∧ n ≤ 122 then n - 97 + 26
  else if 48 ≤ n ∧ n ≤ 57 then n - 48 + 52
  else if c = ('+') then 62
  else if c = ('/') then 63
  else if c = ('-') then 62
  else if c = ('_') then 63
  else 0

/-- The main loop of base64-js toByteArray: each group of four
characters yields three bytes. -/
def b64Quads : List Char → List Nat
  | c0 :: c1 :: c2 :: c3 :: rest =>
    let tmp := b64Rev c0 * 262144 + b64Rev c1 * 4096 + b64Rev c2 * 64 + b64Rev c3
    tmp / 65536 :: tmp / 256 % 256 :: tmp % 256 :: b64Quads rest
  | _ => []

/-- Reverse lookup of the character at an index, zero past the end. -/
def b64CharAt (b64 : List Char) (i : Nat) : Nat := b64Rev (b64.getD i ('A'))

/-- base64-js toByteArray on an already cleaned string: the main loop
stops four characters early when padding is present, and the remaining
characters contribute one byte for two padding characters and two bytes
for one. -/
def b64Decode (b64 : List Char) : List Nat :=
  let len := b64.length
  let validLen := (b64.takeWhile (fun c => c ≠ ('='))).length
  let ph := if validLen = len then 0 else 4 - validLen % 4
  let mainLen := if 0 < ph then validLen - 4 else validLen
  let chunks := (mainLen + 3) / 4
  let main := b64Quads (b64.take (4 * chunks))
  let i := 4 * chunks
  if ph = 2 then
    main ++ [(b64CharAt b64 i * 4 + b64CharAt b64 (i + 1) / 16) % 256]
  else if ph = 1 then
    main ++ [(b64CharAt b64 i * 1024 + b64CharAt b64 (i + 1) * 16 +
              b64CharAt b64 (i + 2) / 4) / 256 % 256,
             (b64CharAt b64 i * 1024 + b64CharAt b64 (i + 1) * 16 +
              b64CharAt b64 (i + 2) / 4) % 256]
  else main

/-- Buffer.from(str, base64) of the browser buffer package. -/
def bufferFromBase64 (s : String) : Bytes := b64Decode (base64clean s.toList)

/-- PriceDataParser.parseData: a falsy data argument or falsy first
element yields none; otherwise the first element is base64 decoded and
the fixed offset reads are attempted, any thrown error yielding none. -/
def parseData (data : Option (List String)) : Option Reading :=
  match data with
  | none => none
  | some l =>
    match l.head? with
    | none => none
    | some s => if s = "" then none else parseBuffer s (bufferFromBase64 s)

/-! ## Connection manager and subscription registry (WebSocketManager)

The manager is embedded as a state record together with one function per
source handler or method: openEvent (the onopen handler), closeEvent
(the onclose handler), correlate and messageEvent (the onmessage
handler), subscribe, unsubscribe and disconnect. Asynchronous effects
are explicit outputs: sent frames are returned as message lists and a
scheduled reconnection is returned as a list of timer delays. -/

/-- A JavaScript value passed as the params argument of subscribe:
either a plain options object with encoding and commitment fields, or a
whole registry record, which is what the resubscribe loop of the onopen
handler passes because Map.forEach hands the value to the callback
before the key. -/
inductive PVal where
  | obj (encoding commitment : String) : PVal
  | record (params : PVal) (pendingId : Option Nat) (confirmedId : Option Nat) : PVal
deriving DecidableEq

/-- A registry entry: the stored params value, the pending request id
(null until or after an acknowledgment is awaited) and the confirmed
subscription id (null until acknowledged). In the source the fields are
named params, pendingId and id. -/
structure SubEntry where
  params : PVal
  pendingId : Option Nat
  confirmedId : Option Nat
deriving DecidableEq

/-- The record value that Map.forEach hands to the resubscribe callback
in place of the stored params object. -/
def SubEntry.asValue (s : SubEntry) : PVal := .record s.params s.pendingId s.confirmedId

/-- JavaScript Map.set on an association list: replace the value in
place when the key is present, append otherwise. -/
def mapSet (m : List (String × SubEntry)) (k : String) (v : SubEntry) : List (String × SubEntry) :=
  match m with
  | [] => [(k, v)]
  | e :: rest => if e.1 = k then (k, v) :: rest else e :: mapSet rest k v

/-- JavaScript Map.get on an association list. -/
def mapGet (m : List (String × SubEntry)) (k : String) : Option SubEntry :=
  match m with
  | [] => none
  | e :: rest => if e.1 = k then some e.2 else mapGet rest k

/-- JavaScript Map.delete on an association list. -/
def mapDelete (m : List (String × SubEntry)) (k : String) : List (String × SubEntry) :=
  match m with
  | [] => []
  | e :: rest => if e.1 = k then rest else e :: mapDelete rest k

/-- An outbound JSON-RPC frame sent over the socket. -/
inductive Msg where
  | accountSubscribe (id : Nat) (address : String) (params : PVal)
  | accountUnsubscribe (id : Nat) (subId : Nat)
deriving DecidableEq

/-- The mutable state of a WebSocketManager instance. hasWs models
whether the ws field is non null; connectionPromise models whether a
connect promise is outstanding. -/
structure WSState where
  reconnectInterval : Nat
  maxReconnectAttempts : Nat
  reconnectAttempts : Nat
  subscriptions : List (String × SubEntry)
  isConnected : Bool
  connectionPromise : Bool
  hasWs : Bool
  lastMessageId : Nat
deriving DecidableEq

/-- The constructor options object; a missing field falls back to the
spread default. -/
structure WSOptions where
  reconnectInterval : Option Nat
  maxReconnectAttempts : Option Nat

/-- The WebSocketManager constructor with its option defaults of 2000
and 5. -/
def newWebSocketManager (opts : WSOptions) : WSState :=
  { reconnectInterval := opts.reconnectInterval.getD 2000
    maxReconnectAttempts := opts.maxReconnectAttempts.getD 5
    reconnectAttempts := 0
    subscriptions := []
    isConnected := false
    connectionPromise := false
    hasWs := false
    lastMessageId := 0 }

/-- WebSocketManager.subscribe at the point where the awaited connect
has resolved: allocate the next request id, store the registry entry
with that pending id and a null confirmed id, and send the
accountSubscribe frame carrying the given params value. -/
def subscribe (s : WSState) (address : String) (params : PVal) : WSState × List Msg :=
  let id := s.lastMessageId + 1
  ({ s with lastMessageId := id
            subscriptions := mapSet s.subscriptions address ⟨params, some id, none⟩ },
   [Msg.accountSubscribe id address params])

/-- The resubscribe loop of the onopen handler: Map.forEach over the
registry entries in insertion order, calling subscribe with the value
of each entry as the params argument. -/
def resubLoop (entries : List (String × SubEntry)) (acc : WSState × List Msg) : WSState × List Msg :=
  match entries with
  | [] => acc
  | e :: rest =>
    let r := subscribe acc.1 e.1 e.2.asValue
    resubLoop rest (r.1, acc.2 ++ r.2)

/-- The onopen handler: mark the connection established, reset the
retry counter to zero, resolve the connect promise, then resubscribe
every registered entry. -/
def openEvent (s : WSState) : WSState × List Msg :=
  let s1 := { s with isConnected := true, reconnectAttempts := 0 }
  resubLoop s1.subscriptions (s1, [])

/-- The onclose handler: clear the connected flag and the connect
promise, then, when the attempt counter is below the maximum, increment
it and schedule one connect call after the reconnect interval. The
returned list holds the delays of the timers set. -/
def closeEvent (s : WSState) : WSState × List Nat :=
  let s1 := { s with isConnected := false, connectionPromise := false }
  if s1.reconnectAttempts < s1.maxReconnectAttempts then
    ({ s1 with reconnectAttempts := s1.reconnectAttempts + 1 }, [s.reconnectInterval])
  else (s1, [])

/-- WebSocketManager.disconnect: when a socket exists, request its
closure and clear the connected flag, the connect promise and the whole
registry. No suppression flag is set and no timer is cancelled; the
close event of the socket still fires afterwards. -/
def disconnect (s : WSState) : WSState :=
  if s.hasWs then
    { s with isConnected := false, connectionPromise := false, subscriptions := [] }
  else s

/-- A parsed inbound frame as far as the correlation step reads it: the
id and result fields, with 0 standing for an absent or otherwise falsy
field. -/
structure InMsg where
  id : Nat
  result : Nat
deriving DecidableEq

/-- The acknowledgment correlation inside onmessage: find the first
registry entry whose pending id equals the message id and store the
result as its confirmed id, clearing the pending id. The mutation is
reached only when both the id and the result fields are truthy. -/
def correlateUpdate (m : List (String × SubEntry)) (reqId result : Nat) : List (String × SubEntry) :=
  match m with
  | [] => []
  | e :: rest =>
    if e.2.pendingId = some reqId then
      (e.1, { e.2 with confirmedId := some result, pendingId := none }) :: rest
    else e :: correlateUpdate rest reqId result

/-- The correlation step of the onmessage handler, including the
truthiness guard on the id and result fields. -/
def correlate (s : WSState) (m : InMsg) : WSState :=
  if m.id ≠ 0 ∧ m.result ≠ 0 then
    { s with subscriptions := correlateUpdate s.subscriptions m.id m.result }
  else s

/-- The handler dispatch loop of onmessage: handlers are opaque
identifiers, and the throws argument tells which of them raise. Each
call is wrapped in try catch, the catch only logging, so the loop
returns the deliveries made in order together with the logged handler
failures. -/
def dispatchList (m : InMsg) : List Nat → (Nat → Bool) → List (Nat × InMsg) × List Nat
  | [], _ => ([], [])
  | h :: rest, throws =>
    let r := dispatchList m rest throws
    ((h, m) :: r.1, (if throws h then [h] else []) ++ r.2)

/-- The whole onmessage handler on an already parsed frame: the
correlation step mutates the registry, then every registered handler is
invoked in registration order under try catch. -/
def messageEvent (s : WSState) (m : InMsg) (handlers : List Nat) (throws : Nat → Bool) :
    WSState × (List (Nat × InMsg) × List Nat) :=
  (correlate s m, dispatchList m handlers throws)

/-- WebSocketManager.unsubscribe: a no-op unless connected with the
address registered and its entry holding a truthy confirmed id, in
which case one accountUnsubscribe frame carrying the confirmed id is
sent and the entry is deleted at once. -/
def unsubscribe (s : WSState) (addr : String) : WSState × List Msg :=
  if s.isConnected = false ∨ mapGet s.subscriptions addr = none then (s, [])
  else
    match mapGet s.subscriptions addr with
    | none => (s, [])
    | some sub =>
      match sub.confirmedId with
      | none => (s, [])
      | some cid =>
        if cid = 0 then (s, [])
        else
          ({ s with lastMessageId := s.lastMessageId + 1
                    subscriptions := mapDelete s.subscriptions addr },
           [Msg.accountUnsubscribe (s.lastMessageId + 1) cid])

/-- The polling predicate of the promise returned by subscribe: the
interval callback resolves once the registry holds the address with a
truthy confirmed id. -/
def pollResolved (s : WSState) (addr : String) : Bool :=
  match mapGet s.subscriptions addr with
  | none => false
  | some sub =>
    match sub.confirmedId with
    | none => false
    | some cid => cid ≠ 0

/-! ## Update throttle (App.jsx handlePriceUpdate and updatePrice)

Readings are labelled by their arrival time. The throttle state keeps
the time of the last delivery, the pending deferred delivery as a fire
time and reading, and the log of deliveries made, each with its time.
A pending timer due not later than the current instant fires before the
arrival is handled. -/

/-- The relevant state of App: the last update time reference, the
pending timeout with its fire time and payload, and the deliveries made
so far. -/
structure ThrottleState where
  lastUpdateTime : Nat
  pending : Option (Nat × Nat)
  delivered : List (Nat × Nat)
deriving DecidableEq

/-- Fire a pending deferred delivery whose time is due: updatePrice runs
with the stored reading, recording the delivery and setting the last
update time to the fire time. -/
def throttleFlush (s : ThrottleState) (t : Nat) : ThrottleState :=
  match s.pending with
  | some (ft, r) =>
    if ft ≤ t then
      { s with pending := none, delivered := s.delivered ++ [(ft, r)], lastUpdateTime := ft }
    else s
  | none => s

/-- handlePriceUpdate on a parsed reading r arriving at time t: clear
any pending timeout, then either schedule the reading at the remaining
wait when the interval has not elapsed since the last update, or
deliver it immediately through updatePrice. -/
def throttleArrive (limit : Nat) (s : ThrottleState) (t : Nat) (r : Nat) : ThrottleState :=
  let dt := t - s.lastUpdateTime
  let s1 := { s with pending := none }
  if dt < limit then
    { s1 with pending := some (s.lastUpdateTime + limit, r) }
  else
    { s1 with delivered := s1.delivered ++ [(t, r)], lastUpdateTime := t }

/-- Run the throttle over a time ordered arrival list, firing due timers
first, and let the final pending timer fire at the end. -/
def throttleRun (limit : Nat) (s : ThrottleState) : List (Nat × Nat) → ThrottleState
  | [] =>
    match s.pending with
    | some (ft, r) =>
      { s with pending := none, delivered := s.delivered ++ [(ft, r)], lastUpdateTime := ft }
    | none => s
  | (t, r) :: rest => throttleRun limit (throttleArrive limit (throttleFlush s t) t r) rest

/-! ## Auxiliary definitions for the claims -/

/-- A well formed payload for the round trip claim: eight leading bytes,
then the price, the confidence and the exponent encoded little endian in
two's complement at offsets 8, 16 and 24. The encoder follows the layout
the specification describes; the decoder above follows the source. -/
def encInt64LE (x : Int) : Bytes :=
  [(x % 18446744073709551616).toNat % 256,
   (x % 18446744073709551616).toNat / 256 % 256,
   (x % 18446744073709551616).toNat / 65536 % 256,
   (x % 18446744073709551616).toNat / 16777216 % 256,
   (x % 18446744073709551616).toNat / 4294967296 % 256,
   (x % 18446744073709551616).toNat / 1099511627776 % 256,
   (x % 18446744073709551616).toNat / 281474976710656 % 256,
   (x % 18446744073709551616).toNat / 72057594037927936 % 256]

/-- Little endian two's complement encoding of a signed 32 bit value. -/
def encInt32LE (x : Int) : Bytes :=
  [(x % 4294967296).toNat % 256,
   (x % 4294967296).toNat / 256 % 256,
   (x % 4294967296).toNat / 65536 % 256,
   (x % 4294967296).toNat / 16777216 % 256]

/-- A 28 byte payload carrying the three encoded values at the claimed
offsets. -/
def encodePayload (p c e : Int) : Bytes :=
  List.replicate 8 0 ++ (encInt64LE p ++ (encInt64LE c ++ encInt32LE e))

/-- The value produced by readBigInt64LE on an encoded 64 bit field
whose represented natural value is A: the exact combination of the
signed high read and the unsigned low read. -/
def dec64lo (A : Nat) : Int :=
  toSigned32 (A / 4294967296 % 256 + A / 1099511627776 % 256 * 256 +
      A / 281474976710656 % 256 * 65536 + A / 72057594037927936 % 256 * 16777216) *
    4294967296 +
  ((A % 256 + A / 256 % 256 * 256 + A / 65536 % 256 * 65536 +
    A / 16777216 % 256 * 16777216 : Nat) : Int)

/-- The value produced by readInt32LE on an encoded 32 bit field whose
represented natural value is A. -/
def dec32v (A : Nat) : Int :=
  toSigned32 (A % 256 + A / 256 % 256 * 256 + A / 65536 % 256 * 65536 +
    A / 16777216 % 256 * 16777216)

/-- Reachable state well formedness of the manager: registry keys are
unique (a JavaScript Map), every pending id is positive and not above
the id counter, distinct entries never share a pending id, and a stored
confirmed id is never zero, since the correlation guard drops falsy
results. -/
structure WSInv (s : WSState) : Prop where
  nodupKeys : (s.subscriptions.map Prod.fst).Nodup
  pendingLe : ∀ e ∈ s.subscriptions, ∀ j, e.2.pendingId = some j →
    0 < j ∧ j ≤ s.lastMessageId
  uniquePending : ∀ e1 ∈ s.subscriptions, ∀ e2 ∈ s.subscriptions, ∀ j,
    e1.2.pendingId = some j → e2.2.pendingId = some j → e1 = e2
  confirmedNonzero : ∀ e ∈ s.subscriptions, e.2.confirmedId ≠ some 0

/-! ### Concrete inputs used by counterexamples and witnesses -/

/-- The default subscription options object of the source. -/
def pDefault : PVal := PVal.obj ("jsonParsed") ("confirmed")

def addrA : String := "A"

def addrB : String := "B"

def rawW : String := "w"

/-- A malformed base64 input: an invalid character followed by 38
alphabet characters. The cleaning step strips the invalid character and
pads, so the decode yields 28 zero bytes. -/
def badB64 : String := "!AAAAAAAAAAAAAAAAAAAAAAAAAAAAAAAAAAAAAA"

/-- A manager state just before the reopen of the socket: address A is
registered with the default params and a confirmed id from the old
connection; an address removed earlier is absent from the registry. -/
def sC1 : WSState :=
  { reconnectInterval := 2000
    maxReconnectAttempts := 5
    reconnectAttempts := 1
    subscriptions := [(addrA, ⟨pDefault, none, some 5⟩)]
    isConnected := false
    connectionPromise := true
    hasWs := true
    lastMessageId := 7 }

/-- A healthy connected manager state on which disconnect is called. -/
def sC2 : WSState :=
  { reconnectInterval := 2000
    maxReconnectAttempts := 5
    reconnectAttempts := 0
    subscriptions := [(addrA, ⟨pDefault, none, some 5⟩)]
    isConnected := true
    connectionPromise := true
    hasWs := true
    lastMessageId := 3 }

/-- The arrival schedule of the throttle claim: readings labelled by
their arrival times 0, 10, 20 and 60. -/
def arrivalsC3 : List (Nat × Nat) := [(0, 0), (10, 10), (20, 20), (60, 60)]

/-- The initial throttle state of the claim: last delivery time zero,
nothing pending, nothing delivered. -/
def throttle0 : ThrottleState := ⟨0, none, []⟩

/-- A connected state with one pending entry, used by witnesses. -/
def sC4w : WSState :=
  { reconnectInterval := 2000
    maxReconnectAttempts := 5
    reconnectAttempts := 3
    subscriptions := []
    isConnected := false
    connectionPromise := false
    hasWs := true
    lastMessageId := 0 }

/-- A state holding one pending subscription for address B. -/
def sC7 : WSState :=
  { reconnectInterval := 2000
    maxReconnectAttempts := 5
    reconnectAttempts := 0
    subscriptions := [(addrB, ⟨pDefault, some 1, none⟩)]
    isConnected := true
    connectionPromise := true
    hasWs := true
    lastMessageId := 1 }

/-- A connected state with a confirmed subscription for address A and a
pending one for address B. -/
def sC9 : WSState :=
  { reconnectInterval := 2000
    maxReconnectAttempts := 5
    reconnectAttempts := 0
    subscriptions := [(addrA, ⟨pDefault, none, some 7⟩), (addrB, ⟨pDefault, some 2, none⟩)]
    isConnected := true
    connectionPromise := true
    hasWs := true
    lastMessageId := 2 }

/-- A state with one subscription awaiting its acknowledgment. -/
def sC10 : WSState :=
  { reconnectInterval := 2000
    maxReconnectAttempts := 5
    reconnectAttempts := 0
    subscriptions := [(addrA, ⟨pDefault, some 1, none⟩)]
    isConnected := true
    connectionPromise := true
    hasWs := true
    lastMessageId := 1 }

/-! ## Helper lemmas -/

theorem subscribe_reconnectAttempts (s : WSState) (a : String) (p : PVal) :
    (subscribe s a p).1.reconnectAttempts = s.reconnectAttempts := rfl

theorem resubLoop_reconnectAttempts (l : List (String × SubEntry)) (acc : WSState × List Msg) :
    (resubLoop l acc).1.reconnectAttempts = acc.1.reconnectAttempts := by
  induction l generalizing acc with
  | nil => rfl
  | cons e rest ih => rw [resubLoop, ih]; rfl

/-! ## Claim theorems -/

/-- C1: per the claim, a closure followed by a reconnect should issue
exactly one accountSubscribe for the registered address A whose params
field equals the stored parameters p. On the embedded code the reopen
does issue exactly one request for A and none for the removed address,
but Map.forEach hands the registry record (value) to the callback in the
position of the params argument, so the params field of the sent frame
is the whole record, not the stored parameters p: the claim fails on the
code at this concrete state. -/
theorem C1_resubscribe_sends_registry_record :
    (openEvent sC1).2 =
      [Msg.accountSubscribe 8 addrA (PVal.record pDefault none (some 5))] ∧
    PVal.record pDefault none (some 5) ≠ pDefault := by decide

/-- C2: per the claim, no automatic reconnection ever follows the
closure caused by disconnect. On the embedded code disconnect clears the
registry but sets no suppression flag, so when the close event of the
closed socket fires, the handler still finds the attempt counter below
the maximum and schedules a connect call after the reconnect interval:
the claim fails on the code at this concrete state. -/
theorem C2_disconnect_then_close_schedules_reconnect :
    (disconnect sC2).subscriptions = [] ∧
    (closeEvent (disconnect sC2)).2 = [2000] := by decide

/-- C3 counterexample: with throttle interval 50 and last delivery time
initially 0, readings at times 0, 10, 20 and 60 do not produce the
claimed delivery schedule of one delivery at 50 with the reading from 20
and one at 60 with the reading from 60. -/
theorem C3_counterexample :
    (throttleRun 50 throttle0 arrivalsC3).delivered ≠ [(50, 20), (60, 60)] := by decide

/-- C3 amended: the flush at time 50 records 50 as the last delivery
time, so the reading arriving at 60 is within the interval and is
deferred to 100; there are exactly two deliveries, one at 50 carrying
the reading from 20 and one at 100 carrying the reading from 60. -/
theorem C3_two_deliveries_fifty_and_hundred :
    (throttleRun 50 throttle0 arrivalsC3).delivered = [(50, 20), (100, 60)] := by decide

/-- C4: a closure while the attempt counter is below the maximum
schedules exactly one retry at the configured backoff interval and
increments the counter; a closure at or past the maximum schedules
nothing and leaves the counter unchanged; a successful open resets the
counter to zero; a closure never resets a nonzero counter; disconnect
does not touch the counter; and the constructor defaults are an
interval of 2000 and a maximum of 5. -/
theorem C4_reconnect_policy (s : WSState) :
    (s.reconnectAttempts < s.maxReconnectAttempts →
      (closeEvent s).2 = [s.reconnectInterval] ∧
      (closeEvent s).1.reconnectAttempts = s.reconnectAttempts + 1) ∧
    (s.maxReconnectAttempts ≤ s.reconnectAttempts →
      (closeEvent s).2 = [] ∧
      (closeEvent s).1.reconnectAttempts = s.reconnectAttempts) ∧
    (openEvent s).1.reconnectAttempts = 0 ∧
    ((closeEvent s).1.reconnectAttempts = 0 → s.reconnectAttempts = 0) ∧
    (disconnect s).reconnectAttempts = s.reconnectAttempts ∧
    (newWebSocketManager ⟨none, none⟩).reconnectInterval = 2000 ∧
    (newWebSocketManager ⟨none, none⟩).maxReconnectAttempts = 5 := by
  refine ⟨fun h => ?_, fun h => ?_, ?_, fun h => ?_, ?_, rfl, rfl⟩
  · simp [closeEvent, h]
  · simp [closeEvent, Nat.not_lt.mpr h]
  · rw [openEvent, resubLoop_reconnectAttempts]
  · by_cases hc : s.reconnectAttempts < s.maxReconnectAttempts
    · simp [closeEvent, hc] at h
    · simpa [closeEvent, hc] using h
  · rw [disconnect]
    split <;> rfl

/-- C4 witness: at a concrete state with three used attempts out of
five, the close event schedules one retry at delay 2000 and moves the
counter to four. -/
theorem C4_witness :
    sC4w.reconnectAttempts < sC4w.maxReconnectAttempts ∧
    (closeEvent sC4w).2 = [2000] ∧
    (closeEvent sC4w).1.reconnectAttempts = 4 :=
  ⟨by decide, ((C4_reconnect_policy sC4w).1 (by decide)).1,
    ((C4_reconnect_policy sC4w).1 (by decide)).2⟩

/-- C8: the onmessage dispatch delivers the parsed message to every
registered handler in registration order, regardless of which handlers
throw; the thrown exceptions are exactly the logged ones; and the
manager state after dispatch is the state left by the correlation step,
untouched by handler failures. -/
theorem C8_dispatch_isolation (s : WSState) (m : InMsg) (handlers : List Nat)
    (throws : Nat → Bool) :
    (messageEvent s m handlers throws).2.1 = handlers.map (fun h => (h, m)) ∧
    (messageEvent s m handlers throws).2.2 = handlers.filter throws ∧
    (messageEvent s m handlers throws).1 = correlate s m := by
  refine ⟨?_, ?_, rfl⟩
  · show (dispatchList m handlers throws).1 = _
    induction handlers with
    | nil => rfl
    | cons h rest ih => simp [dispatchList, ih]
  · show (dispatchList m handlers throws).2 = _
    induction handlers with
    | nil => rfl
    | cons h rest ih =>
      simp only [dispatchList, List.filter, ih]
      cases throws h <;> simp

/-! ### Registry lemmas -/

theorem mapGet_mem {m : List (String × SubEntry)} {k : String} {v : SubEntry}
    (h : mapGet m k = some v) : (k, v) ∈ m := by
  induction m with
  | nil => simp [mapGet] at h
  | cons e rest ih =>
    rw [mapGet] at h
    by_cases hk : e.1 = k
    · rw [if_pos hk] at h
      obtain rfl := Option.some.inj h
      obtain ⟨e1, e2⟩ := e
      subst hk
      exact List.mem_cons_self _ _
    · rw [if_neg hk] at h
      exact List.mem_cons_of_mem _ (ih h)

theorem mapGet_mapSet_self (m : List (String × SubEntry)) (k : String) (v : SubEntry) :
    mapGet (mapSet m k v) k = some v := by
  induction m with
  | nil => simp [mapSet, mapGet]
  | cons e rest ih =>
    by_cases hk : e.1 = k <;> simp [mapSet, mapGet, hk, ih]

theorem keys_mapSet (m : List (String × SubEntry)) (k : String) (v : SubEntry) :
    (mapSet m k v).map Prod.fst =
      if k ∈ m.map Prod.fst then m.map Prod.fst else m.map Prod.fst ++ [k] := by
  induction m with
  | nil => simp [mapSet]
  | cons e rest ih =>
    by_cases hk : e.1 = k
    · simp [mapSet, hk]
    · have hk2 : ¬ k = e.1 := fun h => hk h.symm
      by_cases hmem : k ∈ rest.map Prod.fst <;>
        simp [mapSet, hk, hk2, hmem, ih]

theorem nodupKeys_mapSet {m : List (String × SubEntry)} (k : String) (v : SubEntry)
    (h : (m.map Prod.fst).Nodup) : ((mapSet m k v).map Prod.fst).Nodup := by
  rw [keys_mapSet]
  split
  · exact h
  · next hk =>
    rw [List.nodup_append]
    exact ⟨h, List.nodup_singleton k, by simpa using hk⟩

theorem mem_mapSet {m : List (String × SubEntry)} {k : String} {v : SubEntry}
    (hnd : (m.map Prod.fst).Nodup) {e : String × SubEntry} (he : e ∈ mapSet m k v) :
    e = (k, v) ∨ (e ∈ m ∧ e.1 ≠ k) := by
  induction m with
  | nil =>
    left
    simpa [mapSet] using he
  | cons f rest ih =>
    rw [List.map_cons, List.nodup_cons] at hnd
    rw [mapSet] at he
    by_cases hk : f.1 = k
    · rw [if_pos hk] at he
      rcases List.mem_cons.mp he with h | h
      · left; exact h
      · right
        refine ⟨List.mem_cons_of_mem _ h, fun hek => ?_⟩
        exact hnd.1 (hk ▸ hek ▸ List.mem_map_of_mem Prod.fst h)
    · rw [if_neg hk] at he
      rcases List.mem_cons.mp he with h | h
      · right
        exact ⟨by simp [h], by rw [h]; exact hk⟩
      · rcases ih hnd.2 h with h1 | ⟨h2, h3⟩
        · left; exact h1
        · right; exact ⟨List.mem_cons_of_mem _ h2, h3⟩

theorem correlateUpdate_eq_self {m : List (String × SubEntry)} {i r : Nat}
    (h : ∀ e ∈ m, e.2.pendingId ≠ some i) : correlateUpdate m i r = m := by
  induction m with
  | nil => rfl
  | cons e rest ih =>
    rw [correlateUpdate, if_neg (h e (List.mem_cons_self e rest))]
    rw [ih (fun x hx => h x (List.mem_cons_of_mem _ hx))]

theorem mapGet_correlateUpdate {m : List (String × SubEntry)} {k : String} {v : SubEntry}
    {i r : Nat} (hget : mapGet m k = some v) (hv : v.pendingId = some i)
    (hother : ∀ e ∈ m, e.1 ≠ k → e.2.pendingId ≠ some i) :
    mapGet (correlateUpdate m i r) k =
      some { v with confirmedId := some r, pendingId := none } := by
  induction m with
  | nil => simp [mapGet] at hget
  | cons e rest ih =>
    rw [mapGet] at hget
    by_cases hk : e.1 = k
    · rw [if_pos hk] at hget
      obtain rfl := Option.some.inj hget
      rw [correlateUpdate, if_pos hv, mapGet, if_pos hk]
    · rw [if_neg hk] at hget
      have hne : e.2.pendingId ≠ some i := hother e (List.mem_cons_self e rest) hk
      rw [correlateUpdate, if_neg hne, mapGet, if_neg hk]
      exact ih hget (fun x hx hxk => hother x (List.mem_cons_of_mem _ hx) hxk)

/-- C7: subscribing again for an address keeps the registry keys unique,
replaces the stored entry with the new parameters, a fresh pending id
and a null confirmed id, makes the correlation step ignore any
acknowledgment carrying the superseded pending id of that address, and
lets an acknowledgment carrying the fresh id confirm the entry. -/
theorem C7_registry_overwrite (s : WSState) (addr : String) (p : PVal) (hinv : WSInv s) :
    ((subscribe s addr p).1.subscriptions.map Prod.fst).Nodup ∧
    mapGet (subscribe s addr p).1.subscriptions addr =
      some ⟨p, some (s.lastMessageId + 1), none⟩ ∧
    (∀ old j m2, mapGet s.subscriptions addr = some old → old.pendingId = some j →
      m2.id = j → correlate (subscribe s addr p).1 m2 = (subscribe s addr p).1) ∧
    (∀ r, r ≠ 0 →
      mapGet (correlate (subscribe s addr p).1
          ⟨s.lastMessageId + 1, r⟩).subscriptions addr = some ⟨p, none, some r⟩) := by
  have hsubs : (subscribe s addr p).1.subscriptions
      = mapSet s.subscriptions addr ⟨p, some (s.lastMessageId + 1), none⟩ := rfl
  refine ⟨?_, ?_, ?_, ?_⟩
  · rw [hsubs]
    exact nodupKeys_mapSet _ _ hinv.nodupKeys
  · rw [hsubs]
    exact mapGet_mapSet_self _ _ _
  · intro old j m2 hget hpend hid
    have hmem : (addr, old) ∈ s.subscriptions := mapGet_mem hget
    have hj := hinv.pendingLe (addr, old) hmem j hpend
    have hnone : ∀ e ∈ (subscribe s addr p).1.subscriptions,
        e.2.pendingId ≠ some m2.id := by
      intro e he
      rw [hsubs] at he
      rcases mem_mapSet hinv.nodupKeys he with h1 | ⟨h2, h3⟩
      · rw [h1, hid]
        intro hcontra
        have := Option.some.inj hcontra
        omega
      · rw [hid]
        intro hcontra
        have := hinv.uniquePending e h2 (addr, old) hmem j hcontra hpend
        rw [this] at h3
        exact h3 rfl
    rw [correlate]
    split
    · rw [correlateUpdate_eq_self hnone]
    · rfl
  · intro r hr
    have hother : ∀ e ∈ mapSet s.subscriptions addr
        (⟨p, some (s.lastMessageId + 1), none⟩ : SubEntry), e.1 ≠ addr →
        e.2.pendingId ≠ some (s.lastMessageId + 1) := by
      intro e he hek hcontra
      rcases mem_mapSet hinv.nodupKeys he with h1 | ⟨h2, _⟩
      · rw [h1] at hek
        exact hek rfl
      · have := (hinv.pendingLe e h2 _ hcontra).2
        omega
    rw [correlate,
      if_pos (⟨Nat.succ_ne_zero _, hr⟩ :
        (⟨s.lastMessageId + 1, r⟩ : InMsg).id ≠ 0 ∧
        (⟨s.lastMessageId + 1, r⟩ : InMsg).result ≠ 0)]
    show mapGet (correlateUpdate (mapSet s.subscriptions addr
        ⟨p, some (s.lastMessageId + 1), none⟩) (s.lastMessageId + 1) r) addr = _
    exact mapGet_correlateUpdate (mapGet_mapSet_self _ _ _) rfl hother

theorem invC7 : WSInv sC7 := by
  refine ⟨by decide, ?_, ?_, by decide⟩
  · intro e he j hj
    simp only [sC7, List.mem_singleton] at he
    rw [he] at hj
    simp only [sC7] at hj ⊢
    have := Option.some.inj hj
    omega
  · intro e1 h1 e2 h2 j hj1 hj2
    simp only [sC7, List.mem_singleton] at h1 h2
    rw [h1, h2]

/-- C7 witness: on a concrete well formed state, subscribing to address
A stores the fresh pending entry, and an acknowledgment with the fresh
id 2 and result 9 confirms it. -/
theorem C7_witness :
    mapGet (subscribe sC7 addrA pDefault).1.subscriptions addrA =
      some ⟨pDefault, some 2, none⟩ ∧
    mapGet (correlate (subscribe sC7 addrA pDefault).1
        ⟨2, 9⟩).subscriptions addrA = some ⟨pDefault, none, some 9⟩ :=
  ⟨(C7_registry_overwrite sC7 addrA pDefault invC7).2.1,
   (C7_registry_overwrite sC7 addrA pDefault invC7).2.2.2 9 (by decide)⟩

/-- C9: unsubscribe is a no-op when not connected, when the address is
not registered, and when the entry has no confirmed id yet; otherwise it
sends exactly one accountUnsubscribe frame carrying the confirmed id and
deletes the entry at once. The well formedness hypothesis supplies that
a stored confirmed id is nonzero, which the truthiness test of the
source relies on. -/
theorem C9_unsubscribe_contract (s : WSState) (addr : String) (hinv : WSInv s) :
    (s.isConnected = false → unsubscribe s addr = (s, [])) ∧
    (mapGet s.subscriptions addr = none → unsubscribe s addr = (s, [])) ∧
    (∀ sub, mapGet s.subscriptions addr = some sub → sub.confirmedId = none →
      unsubscribe s addr = (s, [])) ∧
    (∀ sub cid, s.isConnected = true → mapGet s.subscriptions addr = some sub →
      sub.confirmedId = some cid →
      unsubscribe s addr =
        ({ s with lastMessageId := s.lastMessageId + 1,
                  subscriptions := mapDelete s.subscriptions addr },
         [Msg.accountUnsubscribe (s.lastMessageId + 1) cid])) := by
  refine ⟨fun h => ?_, fun h => ?_, fun sub hget hcid => ?_,
    fun sub cid hconn hget hcid => ?_⟩
  · rw [unsubscribe, if_pos (Or.inl h)]
  · rw [unsubscribe, if_pos (Or.inr h)]
  · by_cases hc : s.isConnected = false ∨ mapGet s.subscriptions addr = none
    · rw [unsubscribe, if_pos hc]
    · rw [unsubscribe, if_neg hc]
      simp only [hget, hcid]
  · have hcid0 : cid ≠ 0 := by
      intro h0
      rw [h0] at hcid
      exact hinv.confirmedNonzero (addr, sub) (mapGet_mem hget) hcid
    have hcond : ¬(s.isConnected = false ∨ mapGet s.subscriptions addr = none) := by
      rw [hconn, hget]
      simp
    rw [unsubscribe, if_neg hcond]
    simp only [hget, hcid, if_neg hcid0]

theorem invC9 : WSInv sC9 := by
  refine ⟨by decide, ?_, ?_, by decide⟩
  · intro e he j hj
    simp only [sC9, List.mem_cons, List.mem_singleton, List.not_mem_nil, or_false] at he
    rcases he with he | he <;> rw [he] at hj <;> simp only [sC9] at hj ⊢
    · exact absurd hj (by simp)
    · have := Option.some.inj hj
      omega
  · intro e1 h1 e2 h2 j hj1 hj2
    simp only [sC9, List.mem_cons, List.mem_singleton, List.not_mem_nil, or_false] at h1 h2
    rcases h1 with h1 | h1 <;> rcases h2 with h2 | h2 <;> rw [h1, h2] <;>
      rw [h1] at hj1 <;> rw [h2] at hj2 <;> simp at hj1 hj2

/-- C9 witness: on a concrete connected state, unsubscribing the
confirmed address A sends one accountUnsubscribe frame with the
confirmed id 7 and deletes the entry, while unsubscribing the still
pending address B is a no-op. -/
theorem C9_witness :
    unsubscribe sC9 addrA =
      ({ sC9 with lastMessageId := 3,
                  subscriptions := [(addrB, ⟨pDefault, some 2, none⟩)] },
       [Msg.accountUnsubscribe 3 7]) ∧
    unsubscribe sC9 addrB = (sC9, []) :=
  ⟨(C9_unsubscribe_contract sC9 addrA invC9).2.2.2 ⟨pDefault, none, some 7⟩ 7 rfl rfl rfl,
   (C9_unsubscribe_contract sC9 addrB invC9).2.2.1 ⟨pDefault, some 2, none⟩ rfl rfl⟩

/-- C10: an inbound acknowledgment whose id field or result field is
falsy is never matched by the correlation step: the whole manager state
is unchanged, and for any entry still awaiting its confirmation the
polling test of the subscribe promise stays false, so that subscribe
call never resolves. -/
theorem C10_falsy_ack_never_matches (s : WSState) (m : InMsg)
    (hm : m.id = 0 ∨ m.result = 0) :
    correlate s m = s ∧
    (∀ addr sub, mapGet s.subscriptions addr = some sub → sub.confirmedId = none →
      pollResolved (correlate s m) addr = false) := by
  have hc : correlate s m = s := by
    rw [correlate, if_neg]
    rintro ⟨h1, h2⟩
    rcases hm with h | h
    · exact h1 h
    · exact h2 h
  refine ⟨hc, fun addr sub hget hcid => ?_⟩
  rw [hc, pollResolved]
  simp only [hget, hcid]

/-- C10 witness: a concrete acknowledgment with request id 0 and result
9 leaves the concrete pending state unchanged and the polling test
false. -/
theorem C10_witness :
    ((⟨0, 9⟩ : InMsg).id = 0 ∨ (⟨0, 9⟩ : InMsg).result = 0) ∧
    correlate sC10 ⟨0, 9⟩ = sC10 ∧
    pollResolved (correlate sC10 ⟨0, 9⟩) addrA = false :=
  ⟨Or.inl rfl,
   (C10_falsy_ack_never_matches sC10 ⟨0, 9⟩ (Or.inl rfl)).1,
   (C10_falsy_ack_never_matches sC10 ⟨0, 9⟩ (Or.inl rfl)).2 addrA
     ⟨pDefault, some 1, none⟩ rfl rfl⟩

/-! ### Decoder lemmas -/

theorem dec64lo_eq (x : Int) (h1 : -9223372036854775808 ≤ x)
    (h2 : x < 9223372036854775808) :
    dec64lo ((x % 18446744073709551616).toNat) = x := by
  rw [dec64lo, toSigned32]
  split <;> omega

theorem dec32v_eq (x : Int) (h1 : -2147483648 ≤ x) (h2 : x < 2147483648) :
    dec32v ((x % 4294967296).toNat) = x := by
  rw [dec32v, toSigned32]
  split <;> omega

/-- C5: for all signed 64 bit raw price and confidence values and every
signed 32 bit exponent, decoding a payload that encodes them little
endian at offsets 8, 16 and 24 reproduces all three exactly through the
high signed and low unsigned 32 bit reads, and the returned price and
confidence are the raw values scaled by ten to the exponent. -/
theorem C5_decode_encode_roundtrip (raw : String) (p c e : Int)
    (hp1 : -(2 ^ 63) ≤ p) (hp2 : p < 2 ^ 63)
    (hc1 : -(2 ^ 63) ≤ c) (hc2 : c < 2 ^ 63)
    (he1 : -(2 ^ 31) ≤ e) (he2 : e < 2 ^ 31) :
    parseBuffer raw (encodePayload p c e) =
      some { price := (p : ℚ) * pow10 e, confidence := (c : ℚ) * pow10 e,
             exponent := e, rawPrice := p, rawConfidence := c, raw := raw } := by
  norm_num at hp1 hp2 hc1 hc2 he1 he2
  have h64p : readBigInt64LE (encodePayload p c e) 8
      = some (dec64lo ((p % 18446744073709551616).toNat)) := rfl
  have h64c : readBigInt64LE (encodePayload p c e) 16
      = some (dec64lo ((c % 18446744073709551616).toNat)) := rfl
  have h32e : readInt32LE (encodePayload p c e) 24
      = some (dec32v ((e % 4294967296).toNat)) := rfl
  rw [dec64lo_eq p hp1 hp2] at h64p
  rw [dec64lo_eq c hc1 hc2] at h64c
  rw [dec32v_eq e he1 he2] at h32e
  simp [parseBuffer, h64p, h64c, h32e]

/-- C5 witness: the theorem applied at raw price 2, confidence 3 and
exponent minus one. -/
theorem C5_witness :
    (-(2 ^ 63) : Int) ≤ 2 ∧
    parseBuffer rawW (encodePayload 2 3 (-1)) =
      some { price := ((2 : Int) : ℚ) * pow10 (-1),
             confidence := ((3 : Int) : ℚ) * pow10 (-1),
             exponent := -1, rawPrice := 2, rawConfidence := 3, raw := rawW } :=
  ⟨by norm_num,
   C5_decode_encode_roundtrip rawW 2 3 (-1) (by norm_num) (by norm_num)
     (by norm_num) (by norm_num) (by norm_num) (by norm_num)⟩

theorem readUInt32LE_some (b : Bytes) (off : Nat) (h : off + 4 ≤ b.length) :
    readUInt32LE b off = some (b.getD off 0 + b.getD (off + 1) 0 * 256 +
      b.getD (off + 2) 0 * 65536 + b.getD (off + 3) 0 * 16777216) := by
  rw [readUInt32LE, if_pos h]

theorem parseBuffer_none_of_short (raw : String) (b : Bytes) (h : b.length < 28) :
    parseBuffer raw b = none := by
  have h24 : readInt32LE b 24 = none := by
    rw [readInt32LE, readUInt32LE, if_neg (by omega)]
    rfl
  cases h8 : readBigInt64LE b 8 with
  | none => simp [parseBuffer, h8]
  | some p =>
    cases h16 : readBigInt64LE b 16 with
    | none => simp [parseBuffer, h8, h16]
    | some c => simp [parseBuffer, h8, h16, h24]

theorem parseBuffer_isSome_of_long (raw : String) (b : Bytes) (h : 28 ≤ b.length) :
    (parseBuffer raw b).isSome = true := by
  have r8 := readUInt32LE_some b 8 (by omega)
  have r12 := readUInt32LE_some b 12 (by omega)
  have r16 := readUInt32LE_some b 16 (by omega)
  have r20 := readUInt32LE_some b 20 (by omega)
  have r24 := readUInt32LE_some b 24 (by omega)
  simp [parseBuffer, readBigInt64LE, readInt32LE, r8, r12, r16, r20, r24]

theorem parseBuffer_eq_none_iff (raw : String) (b : Bytes) :
    parseBuffer raw b = none ↔ b.length < 28 := by
  constructor
  · intro h
    by_contra hlen
    push_neg at hlen
    have hs := parseBuffer_isSome_of_long raw b hlen
    rw [h] at hs
    simp at hs
  · exact parseBuffer_none_of_short raw b

/-- C6 amended: parseData returns none exactly when the input is
absent, when the first element is absent or the empty string, or when
the base64 decode of the first element is shorter than 28 bytes; being
a total function of type Option, it never lets an exception escape. A
malformed base64 string is cleaned leniently by the buffer package and
yields none only through the short buffer case. -/
theorem C6_null_iff (data : Option (List String)) :
    parseData data = none ↔
      data = none ∨
      (∃ l, data = some l ∧ l.head? = none) ∨
      (∃ l s, data = some l ∧ l.head? = some s ∧ s = "") ∨
      (∃ l s, data = some l ∧ l.head? = some s ∧ s ≠ "" ∧
        (bufferFromBase64 s).length < 28) := by
  match data with
  | none => simp [parseData]
  | some l =>
    match hh : l.head? with
    | none =>
      have hl : l = [] := by simpa using hh
      simp [parseData, hl]
    | some s =>
      have hl : l ≠ [] := by
        intro h
        rw [h] at hh
        simp at hh
      by_cases hs : s = ""
      · simp [parseData, hh, hs]
      · simp [parseData, hh, hs, hl, parseBuffer_eq_none_iff]

/-- C6 counterexample: a malformed base64 payload, an invalid character
followed by 38 alphabet characters, decodes leniently to 28 zero bytes,
so parseData returns a reading rather than the claimed none. -/
theorem C6_counterexample : parseData (some [badB64]) ≠ none := by decide
